import Mathlib

/-!
# Verification of the JNI string-marshalling module
# (packages/cinterop/src/jvm/jni/utils.cpp)

The module converts between the storage engine's UTF-8 `StringData` and the
runtime's UTF-16 `jstring`:

* `to_jstring` (encoder, storage → runtime), utils.cpp lines 97-163;
* `JStringAccessor::JStringAccessor` (decoder, runtime → storage),
  utils.cpp lines 211-262;
* the error-context formatter `string_to_hex` (two overloads, lines 63-95).

Machine integers are modelled as `Nat` with explicit bound checks
(`sizeMax` for `size_t`, `jsizeMax` for `jsize`).  Pointer ranges are
modelled as lists; a cursor's progress is reported as the produced output
list and the remaining input suffix.  A `jstring` is `Option (List Nat)`
(`none` is the JNI `NULL` handle; `some units` is a string of 16-bit code
units).  Raised C++ exceptions become `Except` errors.
-/

/-- `size_t` maximum (the module is compiled for a 64-bit `size_t`). -/
def sizeMax : Nat := 2 ^ 64 - 1

/-- `jsize` maximum (`jsize` is a signed 32-bit integer). -/
def jsizeMax : Nat := 2 ^ 31 - 1

/-! ## Transcoding engine

Modelled from the spec: the engine `Utf8x16` lives in `utf8.hpp`, which is
included by utils.cpp but is not among the repository sources.  Its four
operations `to_utf16`, `find_utf16_buf_size`, `to_utf8`,
`find_utf8_buf_size`, and the error-code taxonomy (codes 1-4 insufficient
output buffer space, 5 invalid first half of a surrogate pair, 6 incomplete
surrogate pair, 7 invalid second half of a surrogate pair, other codes
unclassified) are modelled from spec sections 4.3 and 8; malformed UTF-8
input is reported with the unclassified code 8. -/

/-- A UTF-8 continuation byte (`10xxxxxx`). -/
abbrev isCont (b : Nat) : Prop := 0x80 ≤ b ∧ b < 0xC0

/-- A Unicode scalar value: a code point that is not a surrogate.  Exactly
these values are representable in both UTF-8 and UTF-16. -/
abbrev ValidScalar (cp : Nat) : Prop :=
  cp < 0x110000 ∧ ¬(0xD800 ≤ cp ∧ cp < 0xE000)

/-- UTF-16 encoding of one scalar value: one unit in the BMP, otherwise a
surrogate pair. -/
def utf16Encode (cp : Nat) : List Nat :=
  if cp < 0x10000 then [cp]
  else [0xD800 + (cp - 0x10000) / 0x400, 0xDC00 + (cp - 0x10000) % 0x400]

/-- UTF-8 encoding of one scalar value (1-4 bytes). -/
def utf8Encode (cp : Nat) : List Nat :=
  if cp < 0x80 then [cp]
  else if cp < 0x800 then [0xC0 + cp / 0x40, 0x80 + cp % 0x40]
  else if cp < 0x10000 then
    [0xE0 + cp / 0x1000, 0x80 + cp / 0x40 % 0x40, 0x80 + cp % 0x40]
  else
    [0xF0 + cp / 0x40000, 0x80 + cp / 0x1000 % 0x40, 0x80 + cp / 0x40 % 0x40,
     0x80 + cp % 0x40]

/-- Decode one scalar value from the front of a UTF-8 byte sequence;
`none` on an empty or malformed front (truncated sequence, stray
continuation byte, overlong form, surrogate, or out-of-range value). -/
def utf8DecodeOne : List Nat → Option (Nat × List Nat)
  | [] => none
  | b :: rest =>
    if b < 0x80 then some (b, rest)
    else if b < 0xC0 then none
    else if b < 0xE0 then
      match rest with
      | c1 :: r =>
        if isCont c1 ∧ 0x80 ≤ (b - 0xC0) * 0x40 + (c1 - 0x80) then
          some ((b - 0xC0) * 0x40 + (c1 - 0x80), r)
        else none
      | [] => none
    else if b < 0xF0 then
      match rest with
      | c1 :: c2 :: r =>
        if isCont c1 ∧ isCont c2 ∧
            0x800 ≤ (b - 0xE0) * 0x1000 + (c1 - 0x80) * 0x40 + (c2 - 0x80) ∧
            ¬(0xD800 ≤ (b - 0xE0) * 0x1000 + (c1 - 0x80) * 0x40 + (c2 - 0x80) ∧
              (b - 0xE0) * 0x1000 + (c1 - 0x80) * 0x40 + (c2 - 0x80) < 0xE000) then
          some ((b - 0xE0) * 0x1000 + (c1 - 0x80) * 0x40 + (c2 - 0x80), r)
        else none
      | _ => none
    else if b < 0xF8 then
      match rest with
      | c1 :: c2 :: c3 :: r =>
        if isCont c1 ∧ isCont c2 ∧ isCont c3 ∧
            0x10000 ≤ (b - 0xF0) * 0x40000 + (c1 - 0x80) * 0x1000 +
              (c2 - 0x80) * 0x40 + (c3 - 0x80) ∧
            (b - 0xF0) * 0x40000 + (c1 - 0x80) * 0x1000 +
              (c2 - 0x80) * 0x40 + (c3 - 0x80) < 0x110000 then
          some ((b - 0xF0) * 0x40000 + (c1 - 0x80) * 0x1000 +
            (c2 - 0x80) * 0x40 + (c3 - 0x80), r)
        else none
      | _ => none
    else none

/-- One step of reading a UTF-16 sequence: the end of input, a malformed
front (engine error codes 5, 6, 7), or one decoded scalar value and the
remaining units. -/
inductive U16Step where
  | done
  | err (code : Nat)
  | ok (cp : Nat) (rest : List Nat)
deriving DecidableEq

/-- Decode one scalar value from the front of a UTF-16 unit sequence.
A low surrogate first is engine error 5 (invalid first half); a high
surrogate at the end of input is error 6 (incomplete pair); a high
surrogate not followed by a low surrogate is error 7 (invalid second
half). -/
def utf16DecodeOne : List Nat → U16Step
  | [] => .done
  | u :: rest =>
    if 0xDC00 ≤ u ∧ u < 0xE000 then .err 5
    else if 0xD800 ≤ u ∧ u < 0xDC00 then
      match rest with
      | [] => .err 6
      | u2 :: rest2 =>
        if 0xDC00 ≤ u2 ∧ u2 < 0xE000 then
          .ok (0x10000 + (u - 0xD800) * 0x400 + (u2 - 0xDC00)) rest2
        else .err 7
    else .ok u rest

/-- Result of `Xcode::to_utf16`: the UTF-16 units written, the unconsumed
UTF-8 input, and the return code (0 = success). -/
structure Utf16Result where
  out : List Nat
  rem : List Nat
  retcode : Nat
deriving DecidableEq

/-- Result of `Xcode::to_utf8`: the UTF-8 bytes written, the unconsumed
UTF-16 input, the success flag, and the error code. -/
structure Utf8Result where
  out : List Nat
  rem : List Nat
  ok : Bool
  error_code : Nat
deriving DecidableEq

/-- Result of a sizing dry-run: the computed output size, the unconsumed
input, and the error code. -/
structure SizeResult where
  size : Nat
  rem : List Nat
  error_code : Nat
deriving DecidableEq

/-- Modelled from the spec: `Xcode::to_utf16` — consume as much of the
UTF-8 input as fits in the output capacity, reporting malformed input
(code 8) or exhausted output space (code 1).  The `fuel` argument only
bounds the recursion depth; every step consumes at least one input byte,
so the wrapper's `input.length` always suffices. -/
def to_utf16_go (fuel : Nat) (input : List Nat) (cap : Nat) : Utf16Result :=
  match fuel, utf8DecodeOne input with
  | _, none => if input = [] then ⟨[], [], 0⟩ else ⟨[], input, 8⟩
  | 0, some _ => ⟨[], input, 8⟩
  | f + 1, some (cp, rest) =>
    let us := utf16Encode cp
    if us.length ≤ cap then
      let r := to_utf16_go f rest (cap - us.length)
      ⟨us ++ r.out, r.rem, r.retcode⟩
    else ⟨[], input, 1⟩

/-- Modelled from the spec: `Xcode::to_utf16` over a byte range with the
given output capacity. -/
def to_utf16 (input : List Nat) (cap : Nat) : Utf16Result :=
  to_utf16_go input.length input cap

/-- Modelled from the spec: `Xcode::find_utf16_buf_size` — dry-run that
measures the exact UTF-16 output size, stopping at the first malformed
sequence (the caller must check that the whole input was consumed). -/
def find_utf16_buf_size_go (fuel : Nat) (input : List Nat) : SizeResult :=
  match fuel, utf8DecodeOne input with
  | _, none => if input = [] then ⟨0, [], 0⟩ else ⟨0, input, 8⟩
  | 0, some _ => ⟨0, input, 8⟩
  | f + 1, some (cp, rest) =>
    let r := find_utf16_buf_size_go f rest
    ⟨(utf16Encode cp).length + r.size, r.rem, r.error_code⟩

/-- Modelled from the spec: `Xcode::find_utf16_buf_size` over a byte
range. -/
def find_utf16_buf_size (input : List Nat) : SizeResult :=
  find_utf16_buf_size_go input.length input

/-- Modelled from the spec: `Xcode::to_utf8` — consume as much of the
UTF-16 input as fits in the output capacity; surrogate errors carry codes
5-7, exhausted output space carries code 1. -/
def to_utf8_go (fuel : Nat) (input : List Nat) (cap : Nat) : Utf8Result :=
  match fuel, utf16DecodeOne input with
  | _, .done => ⟨[], [], true, 0⟩
  | _, .err c => ⟨[], input, false, c⟩
  | 0, .ok _ _ => ⟨[], input, false, 8⟩
  | f + 1, .ok cp rest =>
    let bs := utf8Encode cp
    if bs.length ≤ cap then
      let r := to_utf8_go f rest (cap - bs.length)
      ⟨bs ++ r.out, r.rem, r.ok, r.error_code⟩
    else ⟨[], input, false, 1⟩

/-- Modelled from the spec: `Xcode::to_utf8` over a unit range with the
given output capacity. -/
def to_utf8 (input : List Nat) (cap : Nat) : Utf8Result :=
  to_utf8_go input.length input cap

/-- Modelled from the spec: `Xcode::find_utf8_buf_size` — dry-run that
measures the exact UTF-8 output size, stopping at the first malformed
surrogate sequence. -/
def find_utf8_buf_size_go (fuel : Nat) (input : List Nat) : SizeResult :=
  match fuel, utf16DecodeOne input with
  | _, .done => ⟨0, [], 0⟩
  | _, .err c => ⟨0, input, c⟩
  | 0, .ok _ _ => ⟨0, input, 8⟩
  | f + 1, .ok cp rest =>
    let r := find_utf8_buf_size_go f rest
    ⟨(utf8Encode cp).length + r.size, r.rem, r.error_code⟩

/-- Modelled from the spec: `Xcode::find_utf8_buf_size` over a unit
range. -/
def find_utf8_buf_size (input : List Nat) : SizeResult :=
  find_utf8_buf_size_go input.length input

/-! ## Data model of the marshalled values (utils.cpp) -/

/-- `realm::StringData`: a byte view with a distinguished null state
(utils.cpp uses `str.is_null()`, `str.data()`, `str.size()`). -/
structure StringData where
  data : List Nat
  is_null : Bool
deriving DecidableEq

/-- The payload built by the error-context formatter `string_to_hex`.
The C++ renders a single diagnostic line; the model keeps the formatter's
arguments, which determine that line.

* `hexUnits` is the overload at utils.cpp lines 63-73:
  `string_to_hex(message, const jchar* str, size_t size, size_t error_code)`,
  a hex dump of a UTF-16 unit buffer.
* `hexFull` is the overload at utils.cpp lines 75-95:
  `string_to_hex(message, StringData& str, in_begin, in_end, out_curr,
  out_end, retcode, error_code)`; pointers are modelled as the input
  position (`in_pos`, with `in_end` the input length) and the UTF-16
  output produced so far (`out_sofar`, with `out_cap` the output buffer
  size).
* `plain` is a fixed message with no formatter call
  (`"String size overflow"`). -/
inductive ErrMsg where
  | hexUnits (message : String) (str : List Nat) (size : Nat) (error_code : Nat)
  | hexFull (message : String) (str : StringData) (in_pos : Nat)
      (out_sofar : List Nat) (out_cap : Nat) (retcode : Nat) (error_code : Nat)
  | plain (message : String)
deriving DecidableEq

/-- The two exception classes thrown by utils.cpp:
`realm::util::runtime_error` and `realm::util::invalid_argument`. -/
inductive JavaException where
  | runtime_error (msg : ErrMsg)
  | invalid_argument (msg : ErrMsg)
deriving DecidableEq

/-! ## Encoder: `to_jstring` (utils.cpp lines 97-163) -/

/-- `const size_t stack_buf_size = 48;` (utils.cpp line 109). -/
def stack_buf_size : Nat := 48

/-- The `transcode_complete` label (utils.cpp lines 155-162): cast the
output length `out_curr - out_begin` to `jsize` with
`int_cast_with_overflow_detect`, throwing `"String size overflow"` on
overflow, then build the runtime string with `env->NewString`. -/
def transcode_complete (out : List Nat) : Except JavaException (Option (List Nat)) :=
  if jsizeMax < out.length then
    .error (.runtime_error (.plain "String size overflow"))
  else .ok (some out)

/-- The dynamic-buffer block of `to_jstring` (utils.cpp lines 132-153),
entered with the UTF-16 units already produced into the stack buffer
(`stackOut`, the range `out_begin..out_curr`) and the unconsumed input
(`rem`, the range `in_begin..in_end`): measure the remaining input with
`find_utf16_buf_size` (throwing if it does not consume the whole range),
add `stack_buf_size` with `int_add_with_overflow_detect` (throwing
`"String size overflow"` on overflow), allocate `new jchar[size]`, copy
the stack units into it, resume `to_utf16` from the current input
position, and fall through to `transcode_complete`. -/
def to_jstring_dyn (str : StringData) (stackOut rem : List Nat) :
    Except JavaException (Option (List Nat)) :=
  let s := find_utf16_buf_size rem
  if s.rem ≠ [] then
    .error (.runtime_error (.hexFull "Failure when computing UTF-16 size" str
      (str.data.length - rem.length) stackOut stack_buf_size s.size s.error_code))
  else if sizeMax < s.size + stack_buf_size then
    .error (.runtime_error (.plain "String size overflow"))
  else
    let size := s.size + stack_buf_size
    let r := to_utf16 rem (size - stackOut.length)
    if r.retcode ≠ 0 then
      .error (.runtime_error (.hexFull "Failure when converting long string to UTF-16"
        str (str.data.length - r.rem.length) (stackOut ++ r.out) size 0 r.retcode))
    else
      transcode_complete (stackOut ++ r.out)

/-- `to_jstring` (utils.cpp lines 97-163): `NULL` for a null `StringData`;
otherwise attempt `to_utf16` into the 48-unit stack buffer when
`str.size() <= stack_buf_size` (throwing `runtime_error` on a nonzero
return code, jumping to `transcode_complete` when the whole input was
consumed), and fall through to the dynamic-buffer block otherwise. -/
def to_jstring (str : StringData) : Except JavaException (Option (List Nat)) :=
  if str.is_null then .ok none
  else if str.data.length ≤ stack_buf_size then
    let r := to_utf16 str.data stack_buf_size
    if r.retcode ≠ 0 then
      .error (.runtime_error (.hexFull "Failure when converting short string to UTF-16"
        str (str.data.length - r.rem.length) r.out stack_buf_size 0 r.retcode))
    else if r.rem = [] then transcode_complete r.out
    else to_jstring_dyn str r.out r.rem
  else to_jstring_dyn str [] str.data

/-- Number of heap buffers `to_jstring` allocates (the
`dyn_buf.reset(new jchar[size])` at utils.cpp line 143), mirroring the
control flow of `to_jstring` / `to_jstring_dyn`:  a null input or any
exit before line 143 allocates nothing; reaching the dynamic buffer
allocates one. -/
def to_jstring_heap_allocs (str : StringData) : Nat :=
  if str.is_null then 0
  else
    let dynAllocs : List Nat → Nat := fun rem =>
      let s := find_utf16_buf_size rem
      if s.rem ≠ [] then 0
      else if sizeMax < s.size + stack_buf_size then 0
      else 1
    if str.data.length ≤ stack_buf_size then
      let r := to_utf16 str.data stack_buf_size
      if r.retcode ≠ 0 then 0
      else if r.rem = [] then 0
      else dynAllocs r.rem
    else dynAllocs str.data

/-! ## Decoder: `JStringAccessor` (utils.cpp lines 211-262) -/

/-- The state a constructed `JStringAccessor` exposes: the null flag
(`m_is_null`), the raw owned allocation (`m_data`, of the chosen
`buf_size`), and the used length (`m_size`).  For a null input the C++
constructor returns before touching `m_data`/`m_size`; the model records
the empty buffer and size 0. -/
structure JStringAccessor where
  m_is_null : Bool
  buf : List Nat
  m_size : Nat
deriving DecidableEq

/-- The decoder's buffer-size choice (utils.cpp lines 230-241): at most
`max_project_size` (48) input units take the `4 ×` worst-case projection;
larger inputs are measured exactly with `find_utf8_buf_size`. -/
def max_project_size : Nat := 48

/-- Buffer size chosen by the `JStringAccessor` constructor for a
non-null input of the given UTF-16 units (utils.cpp lines 230-241). -/
def decode_buf_size (chars : List Nat) : Nat :=
  if chars.length ≤ max_project_size then chars.length * 4
  else (find_utf8_buf_size chars).size

/-- `JStringAccessor::JStringAccessor` (utils.cpp lines 211-262) on a
`jstring` (`none` = the `NULL` handle): a null handle marks the result
null and returns; otherwise read the UTF-16 units, choose the buffer
size, allocate `new char[buf_size]`, run `to_utf8` into it (throwing
`invalid_argument` when it fails or does not consume the whole input),
record `m_size = out_begin - m_data.get()`, and `memset` the unused tail
of the allocation to zero.  The `delete_jstring_ref` flag only controls
release of the caller's JNI local reference and has no observable effect
on the constructed value. -/
def JStringAccessor.construct (str : Option (List Nat)) :
    Except JavaException JStringAccessor :=
  match str with
  | none => .ok ⟨true, [], 0⟩
  | some chars =>
    let buf_size := decode_buf_size chars
    let r := to_utf8 chars buf_size
    if r.ok = false then
      .error (.invalid_argument (.hexUnits "Failure when converting to UTF-8"
        chars chars.length r.error_code))
    else if r.rem ≠ [] then
      .error (.invalid_argument (.hexUnits "in_begin != in_end when converting to UTF-8"
        chars chars.length r.error_code))
    else
      .ok ⟨false, r.out ++ List.replicate (buf_size - r.out.length) 0, r.out.length⟩

/-- Whether the constructor acquires the scoped UTF-16 accessor
(`JStringCharsAccessor chars(env, str, ...)`, utils.cpp line 227): the
null-handle early return at lines 221-224 precedes the acquisition. -/
def JStringAccessor.acquiresChars (str : Option (List Nat)) : Bool :=
  match str with
  | none => false
  | some _ => true

/-- Modelled from the spec: the storage-string view a constructed
accessor exposes (`{is_null, data, size}`, spec section 4.2 step 6; the
conversion operator itself lives in utils.h, which is not among the
sources): null when marked null, otherwise the used part of the owned
buffer. -/
def JStringAccessor.asStringData (a : JStringAccessor) : StringData :=
  if a.m_is_null then ⟨[], true⟩ else ⟨a.buf.take a.m_size, false⟩

instance {ε α : Type} [DecidableEq ε] [DecidableEq α] : DecidableEq (Except ε α) := fun
  | .ok x, .ok y => decidable_of_iff (x = y) (by simp)
  | .ok _, .error _ => isFalse (by simp)
  | .error _, .ok _ => isFalse (by simp)
  | .error e, .error f => decidable_of_iff (e = f) (by simp)

/-! ## Sequence-level encodings -/

/-- UTF-8 encoding of a scalar-value sequence. -/
def utf8EncodeList : List Nat → List Nat
  | [] => []
  | cp :: t => utf8Encode cp ++ utf8EncodeList t

/-- UTF-16 encoding of a scalar-value sequence. -/
def utf16EncodeList : List Nat → List Nat
  | [] => []
  | cp :: t => utf16Encode cp ++ utf16EncodeList t

example : to_jstring ⟨[0x61, 0xC3, 0xA9], false⟩ = .ok (some [0x61, 0xE9]) := by decide

example : JStringAccessor.construct (some [0x61, 0xE9]) =
    .ok ⟨false, [0x61, 0xC3, 0xA9, 0, 0, 0, 0, 0], 3⟩ := by decide

/-! ## Engine lemmas: progress, fuel irrelevance, one-step unfolding -/

theorem utf8DecodeOne_length : ∀ {l : List Nat} {cp : Nat} {r : List Nat},
    utf8DecodeOne l = some (cp, r) → r.length < l.length := by
  intro l cp r h
  cases l with
  | nil => exact absurd h (by simp [utf8DecodeOne])
  | cons b rest =>
    unfold utf8DecodeOne at h
    repeat' split at h
    all_goals simp_all
    all_goals omega

theorem utf16DecodeOne_length : ∀ {l : List Nat} {cp : Nat} {r : List Nat},
    utf16DecodeOne l = .ok cp r → r.length < l.length := by
  intro l cp r h
  cases l with
  | nil => exact absurd h (by simp [utf16DecodeOne])
  | cons u rest =>
    unfold utf16DecodeOne at h
    repeat' split at h
    all_goals simp_all
    all_goals omega

theorem utf16DecodeOne_err_codes : ∀ {l : List Nat} {c : Nat},
    utf16DecodeOne l = .err c → c = 5 ∨ c = 6 ∨ c = 7 := by
  intro l c h
  cases l with
  | nil => exact absurd h (by simp [utf16DecodeOne])
  | cons u rest =>
    unfold utf16DecodeOne at h
    repeat' split at h
    all_goals simp_all

theorem to_utf16_go_none {input : List Nat} (f cap : Nat)
    (h : utf8DecodeOne input = none) :
    to_utf16_go f input cap = if input = [] then ⟨[], [], 0⟩ else ⟨[], input, 8⟩ := by
  cases f <;> (unfold to_utf16_go; rw [h])

theorem to_utf16_go_succ {input rest : List Nat} {cp : Nat} (f cap : Nat)
    (h : utf8DecodeOne input = some (cp, rest)) :
    to_utf16_go (f + 1) input cap =
      if (utf16Encode cp).length ≤ cap then
        let r := to_utf16_go f rest (cap - (utf16Encode cp).length)
        ⟨utf16Encode cp ++ r.out, r.rem, r.retcode⟩
      else ⟨[], input, 1⟩ := by
  conv_lhs => unfold to_utf16_go
  rw [h]

theorem to_utf16_go_fuel : ∀ (f g : Nat) (input : List Nat) (cap : Nat),
    input.length ≤ f → input.length ≤ g →
    to_utf16_go f input cap = to_utf16_go g input cap := by
  intro f
  induction f with
  | zero =>
    intro g input cap hf _
    obtain rfl : input = [] := List.length_eq_zero.mp (Nat.le_zero.mp hf)
    rw [@to_utf16_go_none [] 0 cap rfl, @to_utf16_go_none [] g cap rfl]
  | succ f ih =>
    intro g input cap hf hg
    cases hd : utf8DecodeOne input with
    | none => rw [to_utf16_go_none _ cap hd, to_utf16_go_none g cap hd]
    | some v =>
      obtain ⟨cp, rest⟩ := v
      have hlt : rest.length < input.length := utf8DecodeOne_length hd
      cases g with
      | zero =>
        obtain rfl : input = [] := List.length_eq_zero.mp (Nat.le_zero.mp hg)
        simp [utf8DecodeOne] at hd
      | succ g =>
        rw [to_utf16_go_succ f cap hd, to_utf16_go_succ g cap hd]
        simp only
        rw [ih g rest _ (by omega) (by omega)]

theorem to_utf16_none {input : List Nat} (cap : Nat) (h : utf8DecodeOne input = none) :
    to_utf16 input cap = if input = [] then ⟨[], [], 0⟩ else ⟨[], input, 8⟩ :=
  to_utf16_go_none _ cap h

theorem to_utf16_some {input rest : List Nat} {cp : Nat} (cap : Nat)
    (h : utf8DecodeOne input = some (cp, rest)) :
    to_utf16 input cap =
      if (utf16Encode cp).length ≤ cap then
        let r := to_utf16 rest (cap - (utf16Encode cp).length)
        ⟨utf16Encode cp ++ r.out, r.rem, r.retcode⟩
      else ⟨[], input, 1⟩ := by
  cases input with
  | nil => simp [utf8DecodeOne] at h
  | cons b t =>
    have hlt : rest.length < (b :: t).length := utf8DecodeOne_length h
    unfold to_utf16
    rw [show (b :: t).length = t.length + 1 from rfl, to_utf16_go_succ t.length cap h]
    simp only
    rw [to_utf16_go_fuel t.length rest.length rest _ (by simp only [List.length_cons] at hlt; omega) le_rfl]

theorem find_utf16_buf_size_go_none {input : List Nat} (f : Nat)
    (h : utf8DecodeOne input = none) :
    find_utf16_buf_size_go f input = if input = [] then ⟨0, [], 0⟩ else ⟨0, input, 8⟩ := by
  cases f <;> (unfold find_utf16_buf_size_go; rw [h])

theorem find_utf16_buf_size_go_succ {input rest : List Nat} {cp : Nat} (f : Nat)
    (h : utf8DecodeOne input = some (cp, rest)) :
    find_utf16_buf_size_go (f + 1) input =
      let r := find_utf16_buf_size_go f rest
      ⟨(utf16Encode cp).length + r.size, r.rem, r.error_code⟩ := by
  conv_lhs => unfold find_utf16_buf_size_go
  rw [h]

theorem find_utf16_buf_size_go_fuel : ∀ (f g : Nat) (input : List Nat),
    input.length ≤ f → input.length ≤ g →
    find_utf16_buf_size_go f input = find_utf16_buf_size_go g input := by
  intro f
  induction f with
  | zero =>
    intro g input hf _
    obtain rfl : input = [] := List.length_eq_zero.mp (Nat.le_zero.mp hf)
    rw [@find_utf16_buf_size_go_none [] 0 rfl, @find_utf16_buf_size_go_none [] g rfl]
  | succ f ih =>
    intro g input hf hg
    cases hd : utf8DecodeOne input with
    | none => rw [find_utf16_buf_size_go_none _ hd, find_utf16_buf_size_go_none g hd]
    | some v =>
      obtain ⟨cp, rest⟩ := v
      have hlt : rest.length < input.length := utf8DecodeOne_length hd
      cases g with
      | zero =>
        obtain rfl : input = [] := List.length_eq_zero.mp (Nat.le_zero.mp hg)
        simp [utf8DecodeOne] at hd
      | succ g =>
        rw [find_utf16_buf_size_go_succ f hd, find_utf16_buf_size_go_succ g hd]
        simp only
        rw [ih g rest (by omega) (by omega)]

theorem find_utf16_buf_size_none {input : List Nat} (h : utf8DecodeOne input = none) :
    find_utf16_buf_size input = if input = [] then ⟨0, [], 0⟩ else ⟨0, input, 8⟩ :=
  find_utf16_buf_size_go_none _ h

theorem find_utf16_buf_size_some {input rest : List Nat} {cp : Nat}
    (h : utf8DecodeOne input = some (cp, rest)) :
    find_utf16_buf_size input =
      let r := find_utf16_buf_size rest
      ⟨(utf16Encode cp).length + r.size, r.rem, r.error_code⟩ := by
  cases input with
  | nil => simp [utf8DecodeOne] at h
  | cons b t =>
    have hlt : rest.length < (b :: t).length := utf8DecodeOne_length h
    unfold find_utf16_buf_size
    rw [show (b :: t).length = t.length + 1 from rfl, find_utf16_buf_size_go_succ t.length h]
    simp only
    rw [find_utf16_buf_size_go_fuel t.length rest.length rest (by simp only [List.length_cons] at hlt; omega) le_rfl]

theorem to_utf8_go_done {input : List Nat} (f cap : Nat)
    (h : utf16DecodeOne input = .done) :
    to_utf8_go f input cap = ⟨[], [], true, 0⟩ := by
  cases f <;> (unfold to_utf8_go; rw [h])

theorem to_utf8_go_err {input : List Nat} {c : Nat} (f cap : Nat)
    (h : utf16DecodeOne input = .err c) :
    to_utf8_go f input cap = ⟨[], input, false, c⟩ := by
  cases f <;> (unfold to_utf8_go; rw [h])

theorem to_utf8_go_succ {input rest : List Nat} {cp : Nat} (f cap : Nat)
    (h : utf16DecodeOne input = .ok cp rest) :
    to_utf8_go (f + 1) input cap =
      if (utf8Encode cp).length ≤ cap then
        let r := to_utf8_go f rest (cap - (utf8Encode cp).length)
        ⟨utf8Encode cp ++ r.out, r.rem, r.ok, r.error_code⟩
      else ⟨[], input, false, 1⟩ := by
  conv_lhs => unfold to_utf8_go
  rw [h]

theorem to_utf8_go_fuel : ∀ (f g : Nat) (input : List Nat) (cap : Nat),
    input.length ≤ f → input.length ≤ g →
    to_utf8_go f input cap = to_utf8_go g input cap := by
  intro f
  induction f with
  | zero =>
    intro g input cap hf _
    obtain rfl : input = [] := List.length_eq_zero.mp (Nat.le_zero.mp hf)
    rw [@to_utf8_go_done [] 0 cap rfl, @to_utf8_go_done [] g cap rfl]
  | succ f ih =>
    intro g input cap hf hg
    cases hd : utf16DecodeOne input with
    | done => rw [to_utf8_go_done _ cap hd, to_utf8_go_done g cap hd]
    | err c => rw [to_utf8_go_err _ cap hd, to_utf8_go_err g cap hd]
    | ok cp rest =>
      have hlt : rest.length < input.length := utf16DecodeOne_length hd
      cases g with
      | zero =>
        obtain rfl : input = [] := List.length_eq_zero.mp (Nat.le_zero.mp hg)
        simp [utf16DecodeOne] at hd
      | succ g =>
        rw [to_utf8_go_succ f cap hd, to_utf8_go_succ g cap hd]
        simp only
        rw [ih g rest _ (by omega) (by omega)]

theorem to_utf8_done {input : List Nat} (cap : Nat) (h : utf16DecodeOne input = .done) :
    to_utf8 input cap = ⟨[], [], true, 0⟩ :=
  to_utf8_go_done _ cap h

theorem to_utf8_err {input : List Nat} {c : Nat} (cap : Nat)
    (h : utf16DecodeOne input = .err c) :
    to_utf8 input cap = ⟨[], input, false, c⟩ :=
  to_utf8_go_err _ cap h

theorem to_utf8_ok {input rest : List Nat} {cp : Nat} (cap : Nat)
    (h : utf16DecodeOne input = .ok cp rest) :
    to_utf8 input cap =
      if (utf8Encode cp).length ≤ cap then
        let r := to_utf8 rest (cap - (utf8Encode cp).length)
        ⟨utf8Encode cp ++ r.out, r.rem, r.ok, r.error_code⟩
      else ⟨[], input, false, 1⟩ := by
  cases input with
  | nil => simp [utf16DecodeOne] at h
  | cons u t =>
    have hlt : rest.length < (u :: t).length := utf16DecodeOne_length h
    unfold to_utf8
    rw [show (u :: t).length = t.length + 1 from rfl, to_utf8_go_succ t.length cap h]
    simp only
    rw [to_utf8_go_fuel t.length rest.length rest _ (by simp only [List.length_cons] at hlt; omega) le_rfl]

theorem find_utf8_buf_size_go_done {input : List Nat} (f : Nat)
    (h : utf16DecodeOne input = .done) :
    find_utf8_buf_size_go f input = ⟨0, [], 0⟩ := by
  cases f <;> (unfold find_utf8_buf_size_go; rw [h])

theorem find_utf8_buf_size_go_err {input : List Nat} {c : Nat} (f : Nat)
    (h : utf16DecodeOne input = .err c) :
    find_utf8_buf_size_go f input = ⟨0, input, c⟩ := by
  cases f <;> (unfold find_utf8_buf_size_go; rw [h])

theorem find_utf8_buf_size_go_succ {input rest : List Nat} {cp : Nat} (f : Nat)
    (h : utf16DecodeOne input = .ok cp rest) :
    find_utf8_buf_size_go (f + 1) input =
      let r := find_utf8_buf_size_go f rest
      ⟨(utf8Encode cp).length + r.size, r.rem, r.error_code⟩ := by
  conv_lhs => unfold find_utf8_buf_size_go
  rw [h]

theorem find_utf8_buf_size_go_fuel : ∀ (f g : Nat) (input : List Nat),
    input.length ≤ f → input.length ≤ g →
    find_utf8_buf_size_go f input = find_utf8_buf_size_go g input := by
  intro f
  induction f with
  | zero =>
    intro g input hf _
    obtain rfl : input = [] := List.length_eq_zero.mp (Nat.le_zero.mp hf)
    rw [@find_utf8_buf_size_go_done [] 0 rfl, @find_utf8_buf_size_go_done [] g rfl]
  | succ f ih =>
    intro g input hf hg
    cases hd : utf16DecodeOne input with
    | done => rw [find_utf8_buf_size_go_done _ hd, find_utf8_buf_size_go_done g hd]
    | err c => rw [find_utf8_buf_size_go_err _ hd, find_utf8_buf_size_go_err g hd]
    | ok cp rest =>
      have hlt : rest.length < input.length := utf16DecodeOne_length hd
      cases g with
      | zero =>
        obtain rfl : input = [] := List.length_eq_zero.mp (Nat.le_zero.mp hg)
        simp [utf16DecodeOne] at hd
      | succ g =>
        rw [find_utf8_buf_size_go_succ f hd, find_utf8_buf_size_go_succ g hd]
        simp only
        rw [ih g rest (by omega) (by omega)]

theorem find_utf8_buf_size_done {input : List Nat} (h : utf16DecodeOne input = .done) :
    find_utf8_buf_size input = ⟨0, [], 0⟩ :=
  find_utf8_buf_size_go_done _ h

theorem find_utf8_buf_size_err {input : List Nat} {c : Nat}
    (h : utf16DecodeOne input = .err c) :
    find_utf8_buf_size input = ⟨0, input, c⟩ :=
  find_utf8_buf_size_go_err _ h

theorem find_utf8_buf_size_ok {input rest : List Nat} {cp : Nat}
    (h : utf16DecodeOne input = .ok cp rest) :
    find_utf8_buf_size input =
      let r := find_utf8_buf_size rest
      ⟨(utf8Encode cp).length + r.size, r.rem, r.error_code⟩ := by
  cases input with
  | nil => simp [utf16DecodeOne] at h
  | cons u t =>
    have hlt : rest.length < (u :: t).length := utf16DecodeOne_length h
    unfold find_utf8_buf_size
    rw [show (u :: t).length = t.length + 1 from rfl, find_utf8_buf_size_go_succ t.length h]
    simp only
    rw [find_utf8_buf_size_go_fuel t.length rest.length rest (by simp only [List.length_cons] at hlt; omega) le_rfl]

/-! ## One-scalar round trips and length bounds -/

set_option maxHeartbeats 2000000 in
theorem utf8DecodeOne_encode (cp : Nat) (h : ValidScalar cp) (rest : List Nat) :
    utf8DecodeOne (utf8Encode cp ++ rest) = some (cp, rest) := by
  obtain ⟨h1, h2⟩ := h
  unfold utf8Encode
  split_ifs with hA hB hC
  all_goals simp only [List.cons_append, List.nil_append, utf8DecodeOne, isCont]
  all_goals split_ifs
  all_goals first
    | (simp only [Option.some.injEq, Prod.mk.injEq, and_true]
       try omega)
    | (exfalso; omega)

theorem utf16DecodeOne_encode (cp : Nat) (h : ValidScalar cp) (rest : List Nat) :
    utf16DecodeOne (utf16Encode cp ++ rest) = .ok cp rest := by
  obtain ⟨h1, h2⟩ := h
  unfold utf16Encode
  split_ifs with hA
  · simp only [List.cons_append, List.nil_append, utf16DecodeOne]
    rw [if_neg (by omega), if_neg (by omega)]
  · simp only [List.cons_append, List.nil_append, utf16DecodeOne]
    rw [if_neg (by omega), if_pos (by omega), if_pos (by omega)]
    simp only [U16Step.ok.injEq, and_true]
    omega

theorem utf8Encode_length_le (cp : Nat) : (utf8Encode cp).length ≤ 4 := by
  unfold utf8Encode
  split_ifs <;> simp

theorem utf16Encode_length_le_utf8 (cp : Nat) :
    (utf16Encode cp).length ≤ (utf8Encode cp).length := by
  unfold utf16Encode utf8Encode
  split_ifs <;> simp_all <;> omega

theorem utf8Encode_length_le_4mul (cp : Nat) :
    (utf8Encode cp).length ≤ 4 * (utf16Encode cp).length := by
  unfold utf16Encode utf8Encode
  split_ifs <;> simp_all <;> omega

/-! ## Sequence-level round trips -/

theorem utf8EncodeList_cons (cp : Nat) (t : List Nat) :
    utf8EncodeList (cp :: t) = utf8Encode cp ++ utf8EncodeList t := rfl

theorem utf16EncodeList_cons (cp : Nat) (t : List Nat) :
    utf16EncodeList (cp :: t) = utf16Encode cp ++ utf16EncodeList t := rfl

theorem utf16EncodeList_length_le (cps : List Nat) :
    (utf16EncodeList cps).length ≤ (utf8EncodeList cps).length := by
  induction cps with
  | nil => simp [utf16EncodeList, utf8EncodeList]
  | cons cp t ih =>
    rw [utf16EncodeList_cons, utf8EncodeList_cons]
    simp only [List.length_append]
    have := utf16Encode_length_le_utf8 cp
    omega

theorem utf8EncodeList_length_le_4mul (cps : List Nat) :
    (utf8EncodeList cps).length ≤ 4 * (utf16EncodeList cps).length := by
  induction cps with
  | nil => simp [utf16EncodeList, utf8EncodeList]
  | cons cp t ih =>
    rw [utf16EncodeList_cons, utf8EncodeList_cons]
    simp only [List.length_append]
    have := utf8Encode_length_le_4mul cp
    omega

theorem to_utf16_encodeList (cps : List Nat) (h : ∀ cp ∈ cps, ValidScalar cp)
    (cap : Nat) (hcap : (utf16EncodeList cps).length ≤ cap) :
    to_utf16 (utf8EncodeList cps) cap = ⟨utf16EncodeList cps, [], 0⟩ := by
  induction cps generalizing cap with
  | nil => rfl
  | cons cp t ih =>
    have hv : ValidScalar cp := h cp (by simp)
    rw [utf16EncodeList_cons] at hcap ⊢
    simp only [List.length_append] at hcap
    rw [utf8EncodeList_cons,
      to_utf16_some cap (utf8DecodeOne_encode cp hv (utf8EncodeList t)),
      if_pos (by omega)]
    simp only
    rw [ih (fun c hc => h c (by simp [hc])) _ (by omega)]

theorem find_utf16_buf_size_encodeList (cps : List Nat)
    (h : ∀ cp ∈ cps, ValidScalar cp) :
    find_utf16_buf_size (utf8EncodeList cps) = ⟨(utf16EncodeList cps).length, [], 0⟩ := by
  induction cps with
  | nil => rfl
  | cons cp t ih =>
    have hv : ValidScalar cp := h cp (by simp)
    rw [utf8EncodeList_cons,
      find_utf16_buf_size_some (utf8DecodeOne_encode cp hv (utf8EncodeList t))]
    simp only
    rw [ih (fun c hc => h c (by simp [hc]))]
    simp [utf16EncodeList_cons]

theorem to_utf8_encodeList (cps : List Nat) (h : ∀ cp ∈ cps, ValidScalar cp)
    (cap : Nat) (hcap : (utf8EncodeList cps).length ≤ cap) :
    to_utf8 (utf16EncodeList cps) cap = ⟨utf8EncodeList cps, [], true, 0⟩ := by
  induction cps generalizing cap with
  | nil => rfl
  | cons cp t ih =>
    have hv : ValidScalar cp := h cp (by simp)
    rw [utf8EncodeList_cons] at hcap ⊢
    simp only [List.length_append] at hcap
    rw [utf16EncodeList_cons,
      to_utf8_ok cap (utf16DecodeOne_encode cp hv (utf16EncodeList t)),
      if_pos (by omega)]
    simp only
    rw [ih (fun c hc => h c (by simp [hc])) _ (by omega)]

theorem find_utf8_buf_size_encodeList (cps : List Nat)
    (h : ∀ cp ∈ cps, ValidScalar cp) :
    find_utf8_buf_size (utf16EncodeList cps) = ⟨(utf8EncodeList cps).length, [], 0⟩ := by
  induction cps with
  | nil => rfl
  | cons cp t ih =>
    have hv : ValidScalar cp := h cp (by simp)
    rw [utf16EncodeList_cons,
      find_utf8_buf_size_ok (utf16DecodeOne_encode cp hv (utf16EncodeList t))]
    simp only
    rw [ih (fun c hc => h c (by simp [hc]))]
    simp [utf8EncodeList_cons]

/-! ## Sizing-transcoding relationships -/

theorem to_utf16_of_complete_sizing : ∀ (n : Nat) (input : List Nat), input.length ≤ n →
    ∀ cap, (find_utf16_buf_size input).rem = [] → (find_utf16_buf_size input).size ≤ cap →
    (to_utf16 input cap).retcode = 0 ∧ (to_utf16 input cap).rem = [] ∧
      (to_utf16 input cap).out.length = (find_utf16_buf_size input).size := by
  intro n
  induction n with
  | zero =>
    intro input h cap _ _
    obtain rfl : input = [] := List.length_eq_zero.mp (Nat.le_zero.mp h)
    exact ⟨rfl, rfl, rfl⟩
  | succ n ih =>
    intro input hlen cap hrem hsize
    cases hd : utf8DecodeOne input with
    | none =>
      cases input with
      | nil => exact ⟨rfl, rfl, rfl⟩
      | cons b t =>
        rw [find_utf16_buf_size_none hd] at hrem
        simp at hrem
    | some v =>
      obtain ⟨cp, rest⟩ := v
      have hlt : rest.length < input.length := utf8DecodeOne_length hd
      rw [find_utf16_buf_size_some hd] at hrem hsize ⊢
      simp only at hrem hsize ⊢
      rw [to_utf16_some cap hd, if_pos (by omega)]
      have := ih rest (by omega) (cap - (utf16Encode cp).length) hrem (by omega)
      simp only [List.length_append]
      exact ⟨this.1, this.2.1, by omega⟩

theorem to_utf8_fail_of_incomplete_sizing : ∀ (n : Nat) (input : List Nat),
    input.length ≤ n → (find_utf8_buf_size input).rem ≠ [] →
    ∀ cap, (to_utf8 input cap).ok = false := by
  intro n
  induction n with
  | zero =>
    intro input h hrem cap
    obtain rfl : input = [] := List.length_eq_zero.mp (Nat.le_zero.mp h)
    exact absurd rfl hrem
  | succ n ih =>
    intro input hlen hrem cap
    cases hd : utf16DecodeOne input with
    | done => rw [find_utf8_buf_size_done hd] at hrem; exact absurd rfl hrem
    | err c => rw [to_utf8_err cap hd]
    | ok cp rest =>
      have hlt : rest.length < input.length := utf16DecodeOne_length hd
      rw [find_utf8_buf_size_ok hd] at hrem
      simp only at hrem
      rw [to_utf8_ok cap hd]
      split_ifs with hc
      · exact ih rest (by omega) hrem _
      · rfl

theorem to_utf8_ok_imp_rem_nil : ∀ (n : Nat) (input : List Nat), input.length ≤ n →
    ∀ cap, (to_utf8 input cap).ok = true → (to_utf8 input cap).rem = [] := by
  intro n
  induction n with
  | zero =>
    intro input h cap _
    obtain rfl : input = [] := List.length_eq_zero.mp (Nat.le_zero.mp h)
    rfl
  | succ n ih =>
    intro input hlen cap hok
    cases hd : utf16DecodeOne input with
    | done => rw [to_utf8_done cap hd]
    | err c => rw [to_utf8_err cap hd] at hok; exact absurd hok (by simp)
    | ok cp rest =>
      have hlt : rest.length < input.length := utf16DecodeOne_length hd
      rw [to_utf8_ok cap hd] at hok ⊢
      split_ifs at hok ⊢ with hc
      all_goals first
        | exact ih rest (by omega) _ hok
        | exact absurd hok (by simp)

theorem to_utf8_fail_code_of_ample_cap : ∀ (n : Nat) (input : List Nat),
    input.length ≤ n → ∀ cap, 4 * input.length ≤ cap →
    (to_utf8 input cap).ok = false →
    (to_utf8 input cap).error_code = 5 ∨ (to_utf8 input cap).error_code = 6 ∨
      (to_utf8 input cap).error_code = 7 := by
  intro n
  induction n with
  | zero =>
    intro input h cap _ hfail
    obtain rfl : input = [] := List.length_eq_zero.mp (Nat.le_zero.mp h)
    exact absurd hfail (by simp [to_utf8, to_utf8_go])
  | succ n ih =>
    intro input hlen cap hcap hfail
    cases hd : utf16DecodeOne input with
    | done => rw [to_utf8_done cap hd] at hfail; exact absurd hfail (by simp)
    | err c =>
      rw [to_utf8_err cap hd]
      exact utf16DecodeOne_err_codes hd
    | ok cp rest =>
      have hlt : rest.length < input.length := utf16DecodeOne_length hd
      have hbs : (utf8Encode cp).length ≤ 4 := utf8Encode_length_le cp
      rw [to_utf8_ok cap hd] at hfail ⊢
      rw [if_pos (by omega)] at hfail ⊢
      exact ih rest (by omega) (cap - (utf8Encode cp).length) (by omega) hfail

/-! ## Canonical behaviour of the two conversion pipelines on valid text -/

theorem to_jstring_encodeList (cps : List Nat) (h : ∀ cp ∈ cps, ValidScalar cp)
    (hj : (utf16EncodeList cps).length ≤ jsizeMax) :
    to_jstring ⟨utf8EncodeList cps, false⟩ = .ok (some (utf16EncodeList cps)) := by
  have hle := utf16EncodeList_length_le cps
  unfold to_jstring
  rw [if_neg (by simp)]
  by_cases hlen : (utf8EncodeList cps).length ≤ stack_buf_size
  · rw [if_pos hlen,
      to_utf16_encodeList cps h stack_buf_size (by unfold stack_buf_size at hlen ⊢; omega)]
    simp only
    rw [if_neg (by simp)]
    simp only [if_true]
    unfold transcode_complete
    rw [if_neg (by omega)]
  · rw [if_neg hlen]
    unfold to_jstring_dyn
    rw [find_utf16_buf_size_encodeList cps h]
    simp only
    rw [if_neg (by simp),
      if_neg (show ¬sizeMax < (utf16EncodeList cps).length + stack_buf_size by
        unfold sizeMax stack_buf_size
        unfold jsizeMax at hj
        omega)]
    simp only [List.length_nil, Nat.sub_zero]
    rw [to_utf16_encodeList cps h _ (by omega)]
    simp only
    rw [if_neg (by simp)]
    unfold transcode_complete
    rw [if_neg (by simp; omega)]
    simp

theorem construct_encodeList (cps : List Nat) (h : ∀ cp ∈ cps, ValidScalar cp) :
    JStringAccessor.construct (some (utf16EncodeList cps)) =
      .ok ⟨false,
        utf8EncodeList cps ++
          List.replicate
            (decode_buf_size (utf16EncodeList cps) - (utf8EncodeList cps).length) 0,
        (utf8EncodeList cps).length⟩ := by
  have hcap : (utf8EncodeList cps).length ≤ decode_buf_size (utf16EncodeList cps) := by
    unfold decode_buf_size
    split_ifs with hs
    · have := utf8EncodeList_length_le_4mul cps
      omega
    · rw [find_utf8_buf_size_encodeList cps h]
  unfold JStringAccessor.construct
  simp only
  rw [to_utf8_encodeList cps h _ hcap]
  simp only
  rw [if_neg (by simp), if_neg (by simp)]

/-- Claim C1: round trip.  For every valid Unicode text (a sequence of
scalar values, hence representable in both encodings, and short enough
for the runtime's `jsize` length) encoding the UTF-8 bytes with
`to_jstring` yields exactly the UTF-16 encoding, and decoding that
runtime string with the `JStringAccessor` constructor yields back exactly
the original UTF-8 byte span (non-null); hence decode ∘ encode and
encode ∘ decode are both the identity on such text.  A null-marked byte
span encodes to the null (`NULL`) runtime string, and decoding the null
runtime string yields a null-marked byte span again. -/
theorem spec_C1_round_trip (cps : List Nat) (h : ∀ cp ∈ cps, ValidScalar cp)
    (hj : (utf16EncodeList cps).length ≤ jsizeMax) :
    to_jstring ⟨utf8EncodeList cps, false⟩ = .ok (some (utf16EncodeList cps)) ∧
    (∃ a, JStringAccessor.construct (some (utf16EncodeList cps)) = .ok a ∧
      a.asStringData = ⟨utf8EncodeList cps, false⟩) ∧
    (∀ d, to_jstring ⟨d, true⟩ = .ok none) ∧
    (∃ a0, JStringAccessor.construct none = .ok a0 ∧ a0.asStringData = ⟨[], true⟩) := by
  refine ⟨to_jstring_encodeList cps h hj, ⟨_, construct_encodeList cps h, ?_⟩,
    fun d => rfl, ⟨⟨true, [], 0⟩, rfl, rfl⟩⟩
  unfold JStringAccessor.asStringData
  simp only [if_neg (by simp : ¬(false = true))]
  rw [List.take_left]

/-- Concrete instance of C1: the two-scalar text U+0061, U+1F600 (one
BMP character and one surrogate-pair character). -/
theorem spec_C1_round_trip_witness :
    to_jstring ⟨utf8EncodeList [0x61, 0x1F600], false⟩ =
      .ok (some (utf16EncodeList [0x61, 0x1F600])) ∧
    (∃ a, JStringAccessor.construct (some (utf16EncodeList [0x61, 0x1F600])) = .ok a ∧
      a.asStringData = ⟨utf8EncodeList [0x61, 0x1F600], false⟩) ∧
    (∀ d, to_jstring ⟨d, true⟩ = .ok none) ∧
    (∃ a0, JStringAccessor.construct none = .ok a0 ∧ a0.asStringData = ⟨[], true⟩) :=
  spec_C1_round_trip [0x61, 0x1F600] (by decide) (by decide)

/-- Claim C7: null handling.  Encoding a null-marked byte span returns
the null runtime-string handle without allocating any buffer, and
decoding the null runtime-string handle never acquires the scoped UTF-16
accessor and produces a null-marked byte-span result. -/
theorem spec_C7_null_handling :
    (∀ d, to_jstring ⟨d, true⟩ = .ok none ∧ to_jstring_heap_allocs ⟨d, true⟩ = 0) ∧
    JStringAccessor.acquiresChars none = false ∧
    JStringAccessor.construct none = .ok ⟨true, [], 0⟩ ∧
    (JStringAccessor.mk true [] 0).asStringData = ⟨[], true⟩ :=
  ⟨fun d => ⟨rfl, rfl⟩, rfl, rfl, rfl⟩

/-- Claim C8: empty non-null input.  Encoding the empty non-null byte
span succeeds and yields a (non-null) zero-length runtime string;
decoding the zero-length runtime string succeeds and yields a non-null
byte-span result of size 0. -/
theorem spec_C8_empty_input :
    to_jstring ⟨[], false⟩ = .ok (some []) ∧
    JStringAccessor.construct (some []) = .ok ⟨false, [], 0⟩ ∧
    (JStringAccessor.mk false [] 0).asStringData = ⟨[], false⟩ := by
  refine ⟨by decide, by decide, by decide⟩

/-- Claim C3: error classes.  Every error raised by the encoder
`to_jstring` (transcoding failures and size overflow alike) is a
`runtime_error`, and every error raised by the decoder constructor
(necessarily a transcoding failure) is an `invalid_argument`; neither
direction uses the other's class. -/
theorem spec_C3_error_classes :
    (∀ str e, to_jstring str = .error e → ∃ m, e = .runtime_error m) ∧
    (∀ s e, JStringAccessor.construct s = .error e → ∃ m, e = .invalid_argument m) := by
  constructor
  · intro str e h
    unfold to_jstring to_jstring_dyn transcode_complete at h
    simp only [ne_eq] at h
    repeat' split at h
    all_goals simp only [Except.ok.injEq, Except.error.injEq, reduceCtorEq] at h
    all_goals exact ⟨_, h.symm⟩
  · intro s e h
    unfold JStringAccessor.construct at h
    simp only [ne_eq] at h
    repeat' split at h
    all_goals simp only [Except.ok.injEq, Except.error.injEq, reduceCtorEq] at h
    all_goals exact ⟨_, h.symm⟩

/-- Concrete instance of C3: malformed UTF-8 byte `0xFF` on the encode
side, a lone high surrogate on the decode side. -/
theorem spec_C3_error_classes_witness :
    (∃ m, JavaException.runtime_error
        (.hexFull "Failure when converting short string to UTF-16"
          ⟨[0xFF], false⟩ 0 [] 48 0 8) = .runtime_error m) ∧
    (∃ m, JavaException.invalid_argument
        (.hexUnits "Failure when converting to UTF-8" [0xD800] 1 6) =
          .invalid_argument m) :=
  ⟨spec_C3_error_classes.1 ⟨[0xFF], false⟩ _ (by decide),
   spec_C3_error_classes.2 (some [0xD800]) _ (by decide)⟩

/-- Claim C9: zero-fill.  Whenever the decoder succeeds, every byte of
the owned allocation beyond the recorded used length `m_size` is zero. -/
theorem spec_C9_zero_fill (chars : List Nat) (a : JStringAccessor)
    (h : JStringAccessor.construct (some chars) = .ok a) :
    a.buf.drop a.m_size = List.replicate (a.buf.length - a.m_size) 0 := by
  unfold JStringAccessor.construct at h
  simp only [ne_eq] at h
  repeat' split at h
  all_goals simp only [Except.ok.injEq, Except.error.injEq, reduceCtorEq] at h
  subst h
  simp only [List.drop_left, List.length_append, List.length_replicate,
    Nat.add_sub_cancel_left]

/-- Concrete instance of C9: decoding U+0061 over-allocates 4 bytes and
zero-fills the 3-byte tail. -/
theorem spec_C9_zero_fill_witness :
    (JStringAccessor.mk false [0x61, 0, 0, 0] 1).buf.drop
        (JStringAccessor.mk false [0x61, 0, 0, 0] 1).m_size =
      List.replicate ((JStringAccessor.mk false [0x61, 0, 0, 0] 1).buf.length -
        (JStringAccessor.mk false [0x61, 0, 0, 0] 1).m_size) 0 :=
  spec_C9_zero_fill [0x61] ⟨false, [0x61, 0, 0, 0], 1⟩ (by decide)

/-! ## Threshold behaviour (C2) -/

theorem to_jstring_heap_allocs_encodeList (cps : List Nat)
    (h : ∀ cp ∈ cps, ValidScalar cp)
    (hj : (utf16EncodeList cps).length ≤ jsizeMax) :
    to_jstring_heap_allocs ⟨utf8EncodeList cps, false⟩ =
      if (utf8EncodeList cps).length ≤ stack_buf_size then 0 else 1 := by
  have hle := utf16EncodeList_length_le cps
  unfold to_jstring_heap_allocs
  rw [if_neg (by simp)]
  by_cases hlen : (utf8EncodeList cps).length ≤ stack_buf_size
  · rw [if_pos hlen, if_pos hlen,
      to_utf16_encodeList cps h stack_buf_size (by unfold stack_buf_size at hlen ⊢; omega)]
    simp
  · rw [if_neg hlen, if_neg hlen]
    simp only
    rw [find_utf16_buf_size_encodeList cps h]
    simp only
    rw [if_neg (by simp), if_neg (by unfold sizeMax stack_buf_size; unfold jsizeMax at hj; omega)]

theorem construct_asStringData_encodeList (cps : List Nat)
    (h : ∀ cp ∈ cps, ValidScalar cp) :
    ∃ a, JStringAccessor.construct (some (utf16EncodeList cps)) = .ok a ∧
      a.asStringData = ⟨utf8EncodeList cps, false⟩ := by
  refine ⟨_, construct_encodeList cps h, ?_⟩
  unfold JStringAccessor.asStringData
  simp only [if_neg (by simp : ¬(false = true))]
  rw [List.take_left]

/-- Claim C2: threshold boundary.  An encode input of exactly 48 bytes
takes the stack-buffer path (no heap UTF-16 buffer is allocated), an
input of 49 bytes takes the heap path (exactly one heap UTF-16 buffer);
a decode input of exactly 48 units uses the `4 ×` projection for its
buffer size, one of 49 units uses the exact `find_utf8_buf_size` result;
in every case both directions produce the canonical output of the
logical content, so the two paths produce identical output for the same
content. -/
theorem spec_C2_threshold (cps : List Nat) (h : ∀ cp ∈ cps, ValidScalar cp) :
    ((utf8EncodeList cps).length = 48 →
      to_jstring ⟨utf8EncodeList cps, false⟩ = .ok (some (utf16EncodeList cps)) ∧
      to_jstring_heap_allocs ⟨utf8EncodeList cps, false⟩ = 0) ∧
    ((utf8EncodeList cps).length = 49 →
      to_jstring ⟨utf8EncodeList cps, false⟩ = .ok (some (utf16EncodeList cps)) ∧
      to_jstring_heap_allocs ⟨utf8EncodeList cps, false⟩ = 1) ∧
    ((utf16EncodeList cps).length = 48 →
      decode_buf_size (utf16EncodeList cps) = (utf16EncodeList cps).length * 4 ∧
      ∃ a, JStringAccessor.construct (some (utf16EncodeList cps)) = .ok a ∧
        a.asStringData = ⟨utf8EncodeList cps, false⟩) ∧
    ((utf16EncodeList cps).length = 49 →
      decode_buf_size (utf16EncodeList cps) =
        (find_utf8_buf_size (utf16EncodeList cps)).size ∧
      decode_buf_size (utf16EncodeList cps) = (utf8EncodeList cps).length ∧
      ∃ a, JStringAccessor.construct (some (utf16EncodeList cps)) = .ok a ∧
        a.asStringData = ⟨utf8EncodeList cps, false⟩) := by
  have hle := utf16EncodeList_length_le cps
  refine ⟨fun h48 => ?_, fun h49 => ?_, fun hu48 => ?_, fun hu49 => ?_⟩
  · exact ⟨to_jstring_encodeList cps h (by unfold jsizeMax; omega),
      by rw [to_jstring_heap_allocs_encodeList cps h (by unfold jsizeMax; omega),
        if_pos (by unfold stack_buf_size; omega)]⟩
  · exact ⟨to_jstring_encodeList cps h (by unfold jsizeMax; omega),
      by rw [to_jstring_heap_allocs_encodeList cps h (by unfold jsizeMax; omega),
        if_neg (by unfold stack_buf_size; omega)]⟩
  · refine ⟨?_, construct_asStringData_encodeList cps h⟩
    unfold decode_buf_size
    rw [if_pos (by unfold max_project_size; omega)]
  · refine ⟨?_, ?_, construct_asStringData_encodeList cps h⟩
    · unfold decode_buf_size
      rw [if_neg (by unfold max_project_size; omega)]
    · unfold decode_buf_size
      rw [if_neg (by unfold max_project_size; omega), find_utf8_buf_size_encodeList cps h]

/-- Concrete instance of C2: 48 and 49 ASCII characters. -/
theorem spec_C2_threshold_witness :
    (to_jstring ⟨utf8EncodeList (List.replicate 48 0x61), false⟩ =
        .ok (some (utf16EncodeList (List.replicate 48 0x61))) ∧
      to_jstring_heap_allocs ⟨utf8EncodeList (List.replicate 48 0x61), false⟩ = 0) ∧
    (to_jstring ⟨utf8EncodeList (List.replicate 49 0x61), false⟩ =
        .ok (some (utf16EncodeList (List.replicate 49 0x61))) ∧
      to_jstring_heap_allocs ⟨utf8EncodeList (List.replicate 49 0x61), false⟩ = 1) :=
  ⟨(spec_C2_threshold (List.replicate 48 0x61) (by decide)).1 (by decide),
   (spec_C2_threshold (List.replicate 49 0x61) (by decide)).2.1 (by decide)⟩

/-- Claim C4: partial-consumption mismatch raises.  On the encode side,
whenever `find_utf16_buf_size` does not consume its whole input range,
the dynamic-buffer block raises (it never truncates to the partial
size), and so does `to_jstring` itself for a long input; on the decode
side, whenever `find_utf8_buf_size` does not consume its whole input
range, the constructor raises (the subsequent `to_utf8` into the
partially-measured buffer necessarily fails). -/
theorem spec_C4_sizing_mismatch_raises :
    (∀ str stackOut rem, (find_utf16_buf_size rem).rem ≠ [] →
      to_jstring_dyn str stackOut rem =
        .error (.runtime_error (.hexFull "Failure when computing UTF-16 size" str
          (str.data.length - rem.length) stackOut stack_buf_size
          (find_utf16_buf_size rem).size (find_utf16_buf_size rem).error_code))) ∧
    (∀ str, str.is_null = false → stack_buf_size < str.data.length →
      (find_utf16_buf_size str.data).rem ≠ [] → ∃ e, to_jstring str = .error e) ∧
    (∀ chars, (find_utf8_buf_size chars).rem ≠ [] →
      ∃ e, JStringAccessor.construct (some chars) = .error e) := by
  have hdyn : ∀ (str : StringData) (stackOut rem : List Nat),
      (find_utf16_buf_size rem).rem ≠ [] →
      to_jstring_dyn str stackOut rem =
        .error (.runtime_error (.hexFull "Failure when computing UTF-16 size" str
          (str.data.length - rem.length) stackOut stack_buf_size
          (find_utf16_buf_size rem).size (find_utf16_buf_size rem).error_code)) := by
    intro str stackOut rem hrem
    unfold to_jstring_dyn
    simp only [ne_eq]
    rw [if_pos hrem]
  refine ⟨hdyn, ?_, ?_⟩
  · intro str h0 h1 h2
    have hred : to_jstring str = to_jstring_dyn str [] str.data := by
      unfold to_jstring
      rw [if_neg (by simp [h0]), if_neg (by omega)]
    rw [hred, hdyn str [] str.data h2]
    exact ⟨_, rfl⟩
  · intro chars hrem
    have hfail : (to_utf8 chars (decode_buf_size chars)).ok = false :=
      to_utf8_fail_of_incomplete_sizing chars.length chars le_rfl hrem _
    have hred : JStringAccessor.construct (some chars) =
        .error (.invalid_argument (.hexUnits "Failure when converting to UTF-8"
          chars chars.length (to_utf8 chars (decode_buf_size chars)).error_code)) := by
      unfold JStringAccessor.construct
      simp only [ne_eq]
      rw [if_pos hfail]
    rw [hred]
    exact ⟨_, rfl⟩

/-- Concrete instance of C4: the malformed byte `0xFF` on the encode
side, a lone high surrogate on the decode side. -/
theorem spec_C4_sizing_mismatch_raises_witness :
    to_jstring_dyn ⟨[0xFF], false⟩ [] [0xFF] =
      .error (.runtime_error (.hexFull "Failure when computing UTF-16 size"
        ⟨[0xFF], false⟩ 0 [] 48 0 8)) ∧
    (∃ e, JStringAccessor.construct (some [0xD800]) = .error e) :=
  ⟨spec_C4_sizing_mismatch_raises.1 ⟨[0xFF], false⟩ [] [0xFF] (by decide),
   spec_C4_sizing_mismatch_raises.2.2 [0xD800] (by decide)⟩

/-- Claim C5: heap-path arithmetic.  When the sizing dry-run consumes
its whole range, the dynamic block allocates a UTF-16 buffer of exactly
the sizing result plus `stack_buf_size` (checked against `size_t`
overflow, raising `"String size overflow"` on overflow); transcoding
resumes from the unconsumed input into the buffer after the copied stack
units (output = stack units ++ resumed output) rather than restarting,
and that resumed transcode always succeeds and consumes the whole
remaining input (the capacity is sufficient); the final `jsize` cast
raises `"String size overflow"` when the output length exceeds it. -/
theorem spec_C5_heap_path_arithmetic (str : StringData) (stackOut rem : List Nat)
    (hpre : stackOut.length ≤ stack_buf_size)
    (hcomplete : (find_utf16_buf_size rem).rem = []) :
    (sizeMax < (find_utf16_buf_size rem).size + stack_buf_size →
      to_jstring_dyn str stackOut rem =
        .error (.runtime_error (.plain "String size overflow"))) ∧
    ((find_utf16_buf_size rem).size + stack_buf_size ≤ sizeMax →
      (to_utf16 rem
        ((find_utf16_buf_size rem).size + stack_buf_size - stackOut.length)).retcode = 0 ∧
      (to_utf16 rem
        ((find_utf16_buf_size rem).size + stack_buf_size - stackOut.length)).rem = [] ∧
      (to_utf16 rem
        ((find_utf16_buf_size rem).size + stack_buf_size - stackOut.length)).out.length =
        (find_utf16_buf_size rem).size ∧
      to_jstring_dyn str stackOut rem =
        transcode_complete (stackOut ++ (to_utf16 rem
          ((find_utf16_buf_size rem).size + stack_buf_size - stackOut.length)).out)) ∧
    (∀ out, jsizeMax < out.length →
      transcode_complete out = .error (.runtime_error (.plain "String size overflow"))) := by
  have hs := to_utf16_of_complete_sizing rem.length rem le_rfl
    ((find_utf16_buf_size rem).size + stack_buf_size - stackOut.length) hcomplete (by omega)
  refine ⟨fun hov => ?_, fun hno => ⟨hs.1, hs.2.1, hs.2.2, ?_⟩, fun out hjo => ?_⟩
  · unfold to_jstring_dyn
    simp only [ne_eq]
    rw [if_neg (by simp [hcomplete]), if_pos hov]
  · unfold to_jstring_dyn
    simp only [ne_eq]
    rw [if_neg (by simp [hcomplete]), if_neg (by omega)]
    rw [if_neg (by simp [hs.1])]
  · unfold transcode_complete
    rw [if_pos hjo]

/-- Concrete instance of C5: 49 ASCII characters through the dynamic
block with an empty stack prefix. -/
theorem spec_C5_heap_path_arithmetic_witness :
    (to_utf16 (utf8EncodeList (List.replicate 49 0x61))
      ((find_utf16_buf_size (utf8EncodeList (List.replicate 49 0x61))).size +
        stack_buf_size - (0 : Nat))).retcode = 0 ∧
    (to_utf16 (utf8EncodeList (List.replicate 49 0x61))
      ((find_utf16_buf_size (utf8EncodeList (List.replicate 49 0x61))).size +
        stack_buf_size - (0 : Nat))).rem = [] ∧
    (to_utf16 (utf8EncodeList (List.replicate 49 0x61))
      ((find_utf16_buf_size (utf8EncodeList (List.replicate 49 0x61))).size +
        stack_buf_size - (0 : Nat))).out.length =
      (find_utf16_buf_size (utf8EncodeList (List.replicate 49 0x61))).size ∧
    to_jstring_dyn ⟨utf8EncodeList (List.replicate 49 0x61), false⟩ []
        (utf8EncodeList (List.replicate 49 0x61)) =
      transcode_complete ([] ++ (to_utf16 (utf8EncodeList (List.replicate 49 0x61))
        ((find_utf16_buf_size (utf8EncodeList (List.replicate 49 0x61))).size +
          stack_buf_size - (0 : Nat))).out) :=
  (spec_C5_heap_path_arithmetic ⟨utf8EncodeList (List.replicate 49 0x61), false⟩ []
    (utf8EncodeList (List.replicate 49 0x61)) (by decide) (by decide)).2.1 (by decide)

/-- Claim C10: small-path safety of the decoder.  For at most
`max_project_size` input units the `4 ×` projection cannot overflow
`size_t` (the asserted bound `max_project_size ≤ size_t max / 4` holds),
it is the buffer size actually chosen, and it is always sufficient
capacity: a successful `to_utf8` consumed everything, a failing one
failed with a surrogate-validity code (5, 6 or 7) and never for lack of
output space; consequently every constructor error on this path is an
`invalid_argument` carrying a surrogate-validity code. -/
theorem spec_C10_small_path_safety (chars : List Nat)
    (hsmall : chars.length ≤ max_project_size) :
    max_project_size ≤ sizeMax / 4 ∧
    decode_buf_size chars = chars.length * 4 ∧
    chars.length * 4 ≤ sizeMax ∧
    ((to_utf8 chars (chars.length * 4)).ok = true →
      (to_utf8 chars (chars.length * 4)).rem = []) ∧
    ((to_utf8 chars (chars.length * 4)).ok = false →
      (to_utf8 chars (chars.length * 4)).error_code = 5 ∨
      (to_utf8 chars (chars.length * 4)).error_code = 6 ∨
      (to_utf8 chars (chars.length * 4)).error_code = 7) ∧
    (∀ e, JStringAccessor.construct (some chars) = .error e →
      ∃ msg ec, e = .invalid_argument (.hexUnits msg chars chars.length ec) ∧
        (ec = 5 ∨ ec = 6 ∨ ec = 7)) := by
  have hbuf : decode_buf_size chars = chars.length * 4 := by
    unfold decode_buf_size
    rw [if_pos hsmall]
  refine ⟨by decide, hbuf, by unfold max_project_size at hsmall; unfold sizeMax; omega,
    fun hok => to_utf8_ok_imp_rem_nil chars.length chars le_rfl _ hok,
    fun hfail => to_utf8_fail_code_of_ample_cap chars.length chars le_rfl _ (by omega) hfail,
    ?_⟩
  intro e h
  unfold JStringAccessor.construct at h
  simp only [ne_eq] at h
  rw [hbuf] at h
  split_ifs at h with hok hrem
  · simp only [Except.error.injEq] at h
    exact ⟨_, _, h.symm,
      to_utf8_fail_code_of_ample_cap chars.length chars le_rfl _ (by omega) hok⟩
  · exact absurd (to_utf8_ok_imp_rem_nil chars.length chars le_rfl _
      (by revert hok; cases (to_utf8 chars (chars.length * 4)).ok <;> simp)) hrem

/-- Concrete instance of C10: the lone high surrogate `0xD800`, whose
decode error carries code 6 (incomplete surrogate pair). -/
theorem spec_C10_small_path_safety_witness :
    ∃ msg ec, JavaException.invalid_argument
        (.hexUnits "Failure when converting to UTF-8" [0xD800] 1 6) =
        .invalid_argument (.hexUnits msg [0xD800] 1 ec) ∧
      (ec = 5 ∨ ec = 6 ∨ ec = 7) :=
  (spec_C10_small_path_safety [0xD800] (by decide)).2.2.2.2.2 _ (by decide)

/-- Claim C6 (amended): the error-context formatter has two overloads;
the encode path's transcoding diagnostics are built with the overload
taking the storage-string view, the UTF-8 input position, the UTF-16
output produced so far, a return code and an error code (`hexFull`,
utils.cpp lines 75-95), while the decode path's diagnostics are built
with the overload taking the UTF-16 unit buffer and its size plus the
error code (`hexUnits`, utils.cpp lines 63-73); the only encoder errors
not built by a formatter are the fixed `"String size overflow"`
messages. -/
theorem spec_C6_formatter_overloads :
    (∀ str m, to_jstring str = .error (.runtime_error m) →
      (∃ msg sd p o c r ec, m = .hexFull msg sd p o c r ec) ∨
        m = .plain "String size overflow") ∧
    (∀ s e, JStringAccessor.construct s = .error e →
      ∃ msg u n ec, e = .invalid_argument (.hexUnits msg u n ec)) := by
  constructor
  · intro str m h
    unfold to_jstring to_jstring_dyn transcode_complete at h
    simp only [ne_eq] at h
    repeat' split at h
    all_goals simp only [Except.ok.injEq, Except.error.injEq,
      JavaException.runtime_error.injEq, reduceCtorEq] at h
    all_goals first
      | exact .inl ⟨_, _, _, _, _, _, _, h.symm⟩
      | exact .inr h.symm
  · intro s e h
    unfold JStringAccessor.construct at h
    simp only [ne_eq] at h
    repeat' split at h
    all_goals simp only [Except.ok.injEq, Except.error.injEq, reduceCtorEq] at h
    all_goals exact ⟨_, _, _, _, h.symm⟩

/-- Concrete instance of the amended C6: the encode failure on byte
`0xFF` carries a full-overload diagnostic; the decode failure on a lone
high surrogate carries a unit-buffer-overload diagnostic. -/
theorem spec_C6_formatter_overloads_witness :
    ((∃ msg sd p o c r ec,
        ErrMsg.hexFull "Failure when converting short string to UTF-16"
          ⟨[0xFF], false⟩ 0 [] 48 0 8 = .hexFull msg sd p o c r ec) ∨
      ErrMsg.hexFull "Failure when converting short string to UTF-16"
          ⟨[0xFF], false⟩ 0 [] 48 0 8 = .plain "String size overflow") ∧
    (∃ msg u n ec, JavaException.invalid_argument
        (.hexUnits "Failure when converting to UTF-8" [0xD800] 1 6) =
        .invalid_argument (.hexUnits msg u n ec)) :=
  ⟨spec_C6_formatter_overloads.1 ⟨[0xFF], false⟩ _ (by decide),
   spec_C6_formatter_overloads.2 (some [0xD800]) _ (by decide)⟩

/-- The claim as stated in the spec is false: it assigns the unit-buffer
overload to the encode path, but the encode failure on byte `0xFF`
raises a diagnostic built with the full overload, not the unit-buffer
one. -/
theorem spec_C6_formatter_overloads_counterexample :
    ¬∃ msg u n ec, to_jstring ⟨[0xFF], false⟩ =
      .error (.runtime_error (.hexUnits msg u n ec)) := by
  rintro ⟨msg, u, n, ec, h⟩
  rw [show to_jstring ⟨[0xFF], false⟩ =
      .error (.runtime_error (.hexFull "Failure when converting short string to UTF-16"
        ⟨[0xFF], false⟩ 0 [] 48 0 8)) from by decide] at h
  simp at h
